import Mathlib

deriving instance DecidableEq for Except

/-!
# Verification of the typed JSON config-layering engine

Shallow embedding of `src/cascadia/TerminalApp/JsonUtils.h` and the
`GlobalAppSettings` layering code (`GlobalAppSettings.cpp`,
`CascadiaSettings.hpp`): JSON values, per-type conversion traits,
`GetValue` / `GetValueForKey` / `GetRequiredValueForKey`, the
`KeyValueMapper` enum mapper, the `LaunchPosition` string parser and
`GlobalAppSettings::LayerJson`.

Exceptions are modelled with an error type `JError`; every extraction
function returns a pair `(outcome, target)` where `target` is the final
value of the by-reference destination, so that non-mutation on failure is
a provable property rather than an artifact of the encoding.
-/

namespace TerminalApp

/-- A parsed JSON document node (`Json::Value` from jsoncpp). Integers are
modelled as unbounded `Int` (jsoncpp stores 64-bit integers; `isInt`
checks the 32-bit range). Real numbers are not needed by any claim and
are omitted; they would only add unreachable cases under the guards used
here. -/
inductive JValue where
  | null
  | bool (b : Bool)
  | int (n : Int)
  | str (s : String)
  | arr (items : List JValue)
  | obj (kvs : List (String × JValue))

/-- The exceptions thrown by the conversion layer.
`typeMismatch` is `TypeMismatchException` ("invalid type");
`keyed` is `KeyedException` (carries the key and the wrapped inner error);
`requiredKeyMissing` is the `THROW_HR(E_UNEXPECTED)` raised by
`GetRequiredValueForKey`; `logicError` stands for the exceptions jsoncpp
itself raises from `asString`/`asInt`/`getString` on inconvertible
values. -/
inductive JError where
  | typeMismatch
  | keyed (key : String) (inner : JError)
  | requiredKeyMissing
  | logicError (msg : String)
deriving DecidableEq

/-- `what()` of the modelled exceptions. `KeyedException` formats its
message as `error parsing "<key>": <inner.what()>`. -/
def JError.what : JError → String
  | .typeMismatch => "invalid type"
  | .keyed key inner => "error parsing \"" ++ key ++ "\": " ++ inner.what
  | .requiredKeyMissing => "Unexpected failure"
  | .logicError msg => msg

/-- `Json::Value::isNull`. -/
def JValue.isNull : JValue → Bool
  | .null => true
  | _ => false

/-- `Json::Value::isString`. -/
def JValue.isString : JValue → Bool
  | .str _ => true
  | _ => false

/-- `Json::Value::isBool`. -/
def JValue.isBool : JValue → Bool
  | .bool _ => true
  | _ => false

/-- `Json::Value::isInt`: an integral value representable as a 32-bit
signed int. -/
def JValue.isInt : JValue → Bool
  | .int n => decide (-2147483648 ≤ n ∧ n < 2147483648)
  | _ => false

/-- `Json::Value::operator bool()`: `!isNull()`. This is the `if (json)`
test in `GetValue` and in `LayerJson`'s manual blocks. -/
def jTruthy (j : JValue) : Bool := !j.isNull

/-- `Json::Value::asString`: null becomes `""`, strings are returned
as-is, booleans and integers are printed, arrays/objects throw
`Json::LogicError`. -/
def jAsString : JValue → Except JError String
  | .null => .ok ""
  | .bool b => .ok (if b then "true" else "false")
  | .int n => .ok (toString n)
  | .str s => .ok s
  | .arr _ => .error (.logicError "Type is not convertible to string")
  | .obj _ => .error (.logicError "Type is not convertible to string")

/-- `Json::Value::asBool`. -/
def jAsBool : JValue → Except JError Bool
  | .null => .ok false
  | .bool b => .ok b
  | .int n => .ok (decide (n ≠ 0))
  | _ => .error (.logicError "Value is not convertible to bool.")

/-- `Json::Value::asInt`: in-range integers are returned, booleans map to
0/1, null to 0, everything else throws; out-of-range integers fail the
internal range assertion. -/
def jAsInt : JValue → Except JError Int
  | .null => .ok 0
  | .bool b => .ok (if b then 1 else 0)
  | .int n =>
      if -2147483648 ≤ n ∧ n < 2147483648 then .ok n
      else .error (.logicError "LargestInt out of Int range")
  | _ => .error (.logicError "Value is not convertible to Int.")

/-- `Detail::GetStringView`: `Json::Value::getString` requires a string
value (jsoncpp asserts otherwise) and yields its contents. -/
def getStringView : JValue → Except JError String
  | .str s => .ok s
  | _ => .error (.logicError "in Json::Value::getString(begin, end): requires stringValue")

/-- First-match association-list lookup, the behaviour of key lookup in a
JSON object (`Json::Value::find` / `operator[]`; jsoncpp object keys are
unique). -/
def lookupJ : List (String × JValue) → String → Option JValue
  | [], _ => none
  | p :: ps, key => if p.1 = key then some p.2 else lookupJ ps key

/-- `Json::Value::find(begin, end)`: on an object, look the key up; on
null, no result. (jsoncpp asserts on any other receiver; no call site in
the sources does that.) -/
def jFind : JValue → String → Option JValue
  | .obj kvs, key => lookupJ kvs key
  | _, _ => none

/-- `Json::Value::operator[](key)` on a const value: the held value when
the key is present, the null value otherwise. -/
def jIndex (json : JValue) (key : String) : JValue :=
  (jFind json key).getD .null

namespace JsonUtils

/-- `ConversionTrait<T>`: `CanConvert` tests the runtime shape,
`FromJson` converts (and may throw, modelled as `Except`). -/
structure ConversionTrait (T : Type) where
  CanConvert : JValue → Bool
  FromJson : JValue → Except JError T

/-- `ConversionTrait<std::string>`. -/
def traitString : ConversionTrait String where
  CanConvert json := json.isString
  FromJson json := jAsString json

/-- `ConversionTrait<std::wstring>` (wide strings modelled as `String`;
`til::u8u16` is a pure transcoding, modelled as the identity). -/
def traitWString : ConversionTrait String where
  CanConvert json := json.isString
  FromJson json := getStringView json

/-- `ConversionTrait<bool>`. -/
def traitBool : ConversionTrait Bool where
  CanConvert json := json.isBool
  FromJson json := jAsBool json

/-- `ConversionTrait<int>`. -/
def traitInt : ConversionTrait Int where
  CanConvert json := json.isInt
  FromJson json := jAsInt json

/-- Modelled from the spec: `Utils::GuidFromString` (from
`types/inc/utils.hpp`, not in src) parses a GUID from its canonical
string form; modelled as the identity embedding of the string, GUID
values being represented by their canonical string. -/
def guidFromString (s : String) : Except JError String := .ok s

/-- `ConversionTrait<GUID>` (= `ConversionTrait<winrt::guid>`). -/
def traitGuid : ConversionTrait String where
  CanConvert json := json.isString
  FromJson json :=
    match getStringView json with
    | .ok s => guidFromString s
    | .error e => .error e

/-- The lookup loop of `KeyValueMapper::FromJson`: first pair whose name
equals the string wins; otherwise the supplied default (the first
mapping's value). -/
def kvmLookup {T : Type} (name : String) : List (String × T) → T → T
  | [], dflt => dflt
  | p :: ps, dflt => if p.1 = name then p.2 else kvmLookup name ps dflt

/-- `KeyValueMapper<T, TBase>::FromJson`: read the string, scan the
mapping table in order, fall back to the first mapping's value.
`mappings` is always non-empty in the sources, so it is passed as a head
`m0` plus tail `rest`. -/
def kvmFromJson {T : Type} (m0 : String × T) (rest : List (String × T))
    (json : JValue) : Except JError T :=
  match getStringView json with
  | .ok name => .ok (kvmLookup name (m0 :: rest) m0.2)
  | .error e => .error e

/-- `KeyValueMapper::CanConvert`. -/
def kvmCanConvert (json : JValue) : Bool := json.isString

/--
`GetValue(json, target)` for a plain destination: null/absent documents
report "not present"; a non-null document of the wrong shape throws
`TypeMismatchException`; otherwise the converted value is assigned and
"present" reported. The second component of the result is the final
value of the by-reference `target`.
-/
def GetValue {T : Type} (tr : ConversionTrait T) (json : JValue) (target : T) :
    Except JError Bool × T :=
  if jTruthy json then
    if tr.CanConvert json then
      match tr.FromJson json with
      | .ok v => (.ok true, v)
      | .error e => (.error e, target)
    else (.error .typeMismatch, target)
  else (.ok false, target)

/--
The `std::optional<TOpt>` overload of `GetValue`: an explicitly null
document assigns `nullopt` and reports true; otherwise the primitive
path runs on a value-initialized local and a successful result is
wrapped in `some`.
-/
def GetValueOpt {T : Type} [Inhabited T] (tr : ConversionTrait T) (json : JValue)
    (target : Option T) : Except JError Bool × Option T :=
  if json.isNull then (.ok true, none)
  else
    let p := GetValue tr json (default : T)
    match p.1 with
    | .ok true => (.ok true, some p.2)
    | .ok false => (.ok false, target)
    | .error e => (.error e, target)

/--
`GetValueForKey(json, key, target)`: look the key up; if absent report
false; if present run `GetValue`, re-raising any exception as a
`KeyedException` wrapping the key and the inner error.
-/
def GetValueForKey {T : Type} (tr : ConversionTrait T) (json : JValue)
    (key : String) (target : T) : Except JError Bool × T :=
  match jFind json key with
  | some found =>
    let p := GetValue tr found target
    match p.1 with
    | .ok b => (.ok b, p.2)
    | .error e => (.error (.keyed key e), p.2)
  | none => (.ok false, target)

/-- `GetValueForKey` instantiated at a `std::optional` destination (the
same template body; the inner `GetValue` resolves to the optional
overload). -/
def GetValueForKeyOpt {T : Type} [Inhabited T] (tr : ConversionTrait T)
    (json : JValue) (key : String) (target : Option T) :
    Except JError Bool × Option T :=
  match jFind json key with
  | some found =>
    let p := GetValueOpt tr found target
    match p.1 with
    | .ok b => (.ok b, p.2)
    | .error e => (.error (.keyed key e), p.2)
  | none => (.ok false, target)

/-- `GetRequiredValueForKey`: like `GetValueForKey`, but
`THROW_HR(E_UNEXPECTED)` when that reports the value not present. -/
def GetRequiredValueForKey {T : Type} (tr : ConversionTrait T) (json : JValue)
    (key : String) (target : T) : Except JError Unit × T :=
  let p := GetValueForKey tr json key target
  match p.1 with
  | .ok true => (.ok (), p.2)
  | .ok false => (.error .requiredKeyMissing, p.2)
  | .error e => (.error e, p.2)

end JsonUtils

/-- `winrt::Windows::UI::Xaml::ElementTheme` (the members used here). -/
inductive ElementTheme where
  | Default
  | Light
  | Dark
deriving DecidableEq

/-- `winrt::TerminalApp::LaunchMode`. -/
inductive LaunchMode where
  | DefaultMode
  | MaximizedMode
deriving DecidableEq

/-- `winrt::Microsoft::UI::Xaml::Controls::TabViewWidthMode` (the members
used here). -/
inductive TabViewWidthMode where
  | Equal
  | SizeToContent
deriving DecidableEq

/-- `ConversionTrait<ElementTheme>`: a `KeyValueMapper` over
{"system" ↦ Default, "light" ↦ Light, "dark" ↦ Dark}. -/
def traitTheme : JsonUtils.ConversionTrait ElementTheme where
  CanConvert := JsonUtils.kvmCanConvert
  FromJson := JsonUtils.kvmFromJson ("system", ElementTheme.Default)
    [("light", ElementTheme.Light), ("dark", ElementTheme.Dark)]

/-- `ConversionTrait<LaunchMode>`: a `KeyValueMapper` over
{"default" ↦ DefaultMode, "maximized" ↦ MaximizedMode}. -/
def traitLaunchMode : JsonUtils.ConversionTrait LaunchMode where
  CanConvert := JsonUtils.kvmCanConvert
  FromJson := JsonUtils.kvmFromJson ("default", LaunchMode.DefaultMode)
    [("maximized", LaunchMode.MaximizedMode)]

/-- `ConversionTrait<TabViewWidthMode>`: a `KeyValueMapper` over
{"equal" ↦ Equal, "titleLength" ↦ SizeToContent}. -/
def traitTabWidthMode : JsonUtils.ConversionTrait TabViewWidthMode where
  CanConvert := JsonUtils.kvmCanConvert
  FromJson := JsonUtils.kvmFromJson ("equal", TabViewWidthMode.Equal)
    [("titleLength", TabViewWidthMode.SizeToContent)]

/-- `LaunchPosition` (`CascadiaSettings.hpp`): two independent optional
coordinates. -/
structure LaunchPosition where
  x : Option Int
  y : Option Int
deriving DecidableEq

/-- The character classes `std::stoi` skips as leading whitespace
(C `isspace` in the default locale). -/
def isSpaceChar (c : Char) : Bool :=
  c = ' ' ∨ c = '\t' ∨ c = '\n' ∨ c = '\x0b' ∨ c = '\x0c' ∨ c = '\r'

/-- Decimal value of a digit string. -/
def digitsToNat (ds : List Char) : Nat :=
  ds.foldl (fun acc c => acc * 10 + (c.toNat - 48)) 0

/-- `std::stoi` on a token, as `none` on failure: skip leading
whitespace, read an optional sign, then the maximal run of decimal
digits (trailing garbage ignored); no digit at all throws
`invalid_argument` and a value outside the `int` range throws
`out_of_range` — both land in the parser's `catch (...)`. -/
def stoi? (s : String) : Option Int :=
  let cs := s.toList.dropWhile isSpaceChar
  let signed : Bool × List Char :=
    match cs with
    | '+' :: rest => (false, rest)
    | '-' :: rest => (true, rest)
    | _ => (false, cs)
  let ds := signed.2.takeWhile Char.isDigit
  if ds = [] then none
  else
    let v : Int := if signed.1 then -(digitsToNat ds : Int) else (digitsToNat ds : Int)
    if -2147483648 ≤ v ∧ v < 2147483648 then some v else none

/-- Split a character list at every comma (a delimiter at the end yields
a trailing empty piece, as `String.splitOn` would). -/
def splitComma : List Char → List (List Char)
  | [] => [[]]
  | c :: rest =>
    if c = ',' then [] :: splitComma rest
    else
      match splitComma rest with
      | t :: ts => (c :: t) :: ts
      | [] => [[c]]

/-- The token sequence produced by repeated
`std::getline(tokenStream, token, ',')` on `s`: split on commas, except
that an empty stream yields no token at all and a trailing comma does
not produce a final empty token (`getline` fails after consuming the
final delimiter without extracting a character). -/
def getlineTokens (s : String) : List String :=
  let cs := s.toList
  if cs = [] then []
  else if cs.getLast? = some ',' then ((splitComma cs).dropLast).map (fun t => ⟨t⟩)
  else (splitComma cs).map (fun t => ⟨t⟩)

/-- The body of the parsing loop of
`ConversionTrait<LaunchPosition>::FromJson`: for each token while the
index is below 2, `std::stoi` it; on success store it in `x` (index 0)
or `y` (index 1); on exception do nothing; the index advances either
way. -/
def assignPositions : List String → Nat → LaunchPosition → LaunchPosition
  | [], _, ret => ret
  | token :: rest, initialPosIndex, ret =>
    if initialPosIndex < 2 then
      assignPositions rest (initialPosIndex + 1)
        (match stoi? token with
         | some position =>
           if initialPosIndex = 0 then { ret with x := some position }
           else if initialPosIndex = 1 then { ret with y := some position }
           else ret
         | none => ret)
    else ret

/-- `ConversionTrait<LaunchPosition>::FromJson`: read the string, split
it on commas, and fill the first two coordinates from the numeric
tokens. -/
def launchPositionFromJson (json : JValue) : Except JError LaunchPosition :=
  match jAsString json with
  | .ok initialPosition =>
    .ok (assignPositions (getlineTokens initialPosition) 0 ⟨none, none⟩)
  | .error e => .error e

/-- `ConversionTrait<LaunchPosition>`. -/
def traitLaunchPosition : JsonUtils.ConversionTrait LaunchPosition where
  CanConvert json := json.isString
  FromJson := launchPositionFromJson

/-- Modelled from the spec: the built-in defaults of
`GlobalAppSettings()`. `DEFAULT_ROWS`, `DEFAULT_COLS`,
`DEFAULT_ROWSTOSCROLL`, `DEFAULT_WORD_DELIMITERS` and the release-build
`debugFeaturesDefault` come from `DefaultSettings.h` (not in src); the
remaining defaults are the `GETSET_PROPERTY` initializers of
`CascadiaSettings.hpp`. The concrete numeric/string values are
placeholders for constants the sources do not show and no claim depends
on. -/
structure GlobalAppSettings where
  DefaultProfile : String
  InitialRows : Int
  InitialCols : Int
  AlwaysShowTabs : Bool
  ShowTitleInTitlebar : Bool
  ConfirmCloseAllTabs : Bool
  Theme : ElementTheme
  TabWidthMode : TabViewWidthMode
  RowsToScroll : Int
  ShowTabsInTitlebar : Bool
  WordDelimiters : String
  CopyOnSelect : Bool
  CopyFormatting : Bool
  InitialPosition : LaunchPosition
  LaunchMode : LaunchMode
  SnapToGridOnResize : Bool
  DebugFeatures : Bool
  keybindingsWarnings : List Nat
deriving DecidableEq

/-- The freshly-constructed `GlobalAppSettings` (see the structure's
doc comment for the provenance of each default). -/
def defaultSettings : GlobalAppSettings where
  DefaultProfile := ""
  InitialRows := 30
  InitialCols := 120
  AlwaysShowTabs := true
  ShowTitleInTitlebar := true
  ConfirmCloseAllTabs := true
  Theme := .Default
  TabWidthMode := .Equal
  RowsToScroll := 0
  ShowTabsInTitlebar := true
  WordDelimiters := " "
  CopyOnSelect := false
  CopyFormatting := false
  InitialPosition := ⟨none, none⟩
  LaunchMode := .DefaultMode
  SnapToGridOnResize := true
  DebugFeatures := false
  keybindingsWarnings := []

namespace GlobalAppSettings

/-- One `JsonUtils::GetValueForKey(json, key, _Field)` statement of
`LayerJson`: the field is the by-reference target, so it always ends up
holding the pair's second component (unchanged unless the conversion
succeeded). -/
def stepOf {T : Type} (tr : JsonUtils.ConversionTrait T) (json : JValue)
    (key : String) (get : GlobalAppSettings → T)
    (set : T → GlobalAppSettings → GlobalAppSettings)
    (s : GlobalAppSettings) : Except JError Bool × GlobalAppSettings :=
  let p := JsonUtils.GetValueForKey tr json key (get s)
  (p.1, set p.2 s)

/-- Exception propagation between consecutive statements of `LayerJson`:
an exception aborts the rest of the method, leaving the settings in
their current (possibly partially updated) state. -/
def chain {α : Type} (p : Except JError α × GlobalAppSettings)
    (next : GlobalAppSettings → Except JError Unit × GlobalAppSettings) :
    Except JError Unit × GlobalAppSettings :=
  match p.1 with
  | .ok _ => next p.2
  | .error e => (.error e, p.2)

/-- The manually-parsed `rowsToScroll` block of `LayerJson`: when the key
holds a non-null value, an integer is assigned directly and anything
else sets the field to 0 (meaning "use the system setting"); its typed
extraction path is bypassed entirely. -/
def rtsStep (json : JValue) (s : GlobalAppSettings) :
    Except JError Unit × GlobalAppSettings :=
  let rowsToScroll := jIndex json "rowsToScroll"
  if jTruthy rowsToScroll then
    if rowsToScroll.isInt then
      match jAsInt rowsToScroll with
      | .ok n => (.ok (), { s with RowsToScroll := n })
      | .error e => (.error e, s)
    else (.ok (), { s with RowsToScroll := 0 })
  else (.ok (), s)

/-- The `keybindings` block of `LayerJson`: when the key holds a non-null
value, `AppKeyBindings::LayerJson` (not in src; its warning output is
the supplied `kb`, warnings modelled as opaque `Nat` tokens per the
spec's warnings side-channel) runs and its warnings are appended to the
accumulated list. -/
def kbStep (kb : JValue → List Nat) (json : JValue) (s : GlobalAppSettings) :
    GlobalAppSettings :=
  let keybindings := jIndex json "keybindings"
  if jTruthy keybindings then
    { s with keybindingsWarnings := s.keybindingsWarnings ++ kb keybindings }
  else s

/-- `GlobalAppSettings::LayerJson(json)`: one `GetValueForKey` per known
field, in source order, with the manual `rowsToScroll` and `keybindings`
blocks in their places. `kb` stands for the keybindings sub-layering
(see `kbStep`). -/
def LayerJson (kb : JValue → List Nat) (json : JValue)
    (s : GlobalAppSettings) : Except JError Unit × GlobalAppSettings :=
  chain (stepOf JsonUtils.traitGuid json "defaultProfile"
      (fun s => s.DefaultProfile) (fun v s => { s with DefaultProfile := v }) s) fun s =>
  chain (stepOf JsonUtils.traitBool json "alwaysShowTabs"
      (fun s => s.AlwaysShowTabs) (fun v s => { s with AlwaysShowTabs := v }) s) fun s =>
  chain (stepOf JsonUtils.traitBool json "confirmCloseAllTabs"
      (fun s => s.ConfirmCloseAllTabs) (fun v s => { s with ConfirmCloseAllTabs := v }) s) fun s =>
  chain (stepOf JsonUtils.traitInt json "initialRows"
      (fun s => s.InitialRows) (fun v s => { s with InitialRows := v }) s) fun s =>
  chain (stepOf JsonUtils.traitInt json "initialCols"
      (fun s => s.InitialCols) (fun v s => { s with InitialCols := v }) s) fun s =>
  chain (rtsStep json s) fun s =>
  chain (stepOf traitLaunchPosition json "initialPosition"
      (fun s => s.InitialPosition) (fun v s => { s with InitialPosition := v }) s) fun s =>
  chain (stepOf JsonUtils.traitBool json "showTerminalTitleInTitlebar"
      (fun s => s.ShowTitleInTitlebar) (fun v s => { s with ShowTitleInTitlebar := v }) s) fun s =>
  chain (stepOf JsonUtils.traitBool json "showTabsInTitlebar"
      (fun s => s.ShowTabsInTitlebar) (fun v s => { s with ShowTabsInTitlebar := v }) s) fun s =>
  chain (stepOf JsonUtils.traitWString json "wordDelimiters"
      (fun s => s.WordDelimiters) (fun v s => { s with WordDelimiters := v }) s) fun s =>
  chain (stepOf JsonUtils.traitBool json "copyOnSelect"
      (fun s => s.CopyOnSelect) (fun v s => { s with CopyOnSelect := v }) s) fun s =>
  chain (stepOf JsonUtils.traitBool json "copyFormatting"
      (fun s => s.CopyFormatting) (fun v s => { s with CopyFormatting := v }) s) fun s =>
  chain (stepOf traitLaunchMode json "launchMode"
      (fun s => s.LaunchMode) (fun v s => { s with LaunchMode := v }) s) fun s =>
  chain (stepOf traitTheme json "theme"
      (fun s => s.Theme) (fun v s => { s with Theme := v }) s) fun s =>
  chain (stepOf traitTabWidthMode json "tabWidthMode"
      (fun s => s.TabWidthMode) (fun v s => { s with TabWidthMode := v }) s) fun s =>
  chain (stepOf JsonUtils.traitBool json "snapToGridOnResize"
      (fun s => s.SnapToGridOnResize) (fun v s => { s with SnapToGridOnResize := v }) s) fun s =>
  chain (stepOf JsonUtils.traitBool json "debugFeatures"
      (fun s => s.DebugFeatures) (fun v s => { s with DebugFeatures := v }) s) fun s =>
  (.ok (), kbStep kb json s)

end GlobalAppSettings

/-- The settings fields `LayerJson` handles (every `GETSET_PROPERTY` of
`GlobalAppSettings` that `LayerJson` reads a key for). -/
inductive SettingsField where
  | defaultProfile
  | alwaysShowTabs
  | confirmCloseAllTabs
  | initialRows
  | initialCols
  | rowsToScroll
  | initialPosition
  | showTitleInTitlebar
  | showTabsInTitlebar
  | wordDelimiters
  | copyOnSelect
  | copyFormatting
  | launchMode
  | theme
  | tabWidthMode
  | snapToGridOnResize
  | debugFeatures
deriving DecidableEq

/-- A settings-field value, as a sum over the field types. -/
inductive FieldVal where
  | s (v : String)
  | i (v : Int)
  | b (v : Bool)
  | th (v : ElementTheme)
  | twm (v : TabViewWidthMode)
  | lm (v : LaunchMode)
  | lp (v : LaunchPosition)
deriving DecidableEq

/-- The JSON key `LayerJson` reads for each field. -/
def fieldKey : SettingsField → String
  | .defaultProfile => "defaultProfile"
  | .alwaysShowTabs => "alwaysShowTabs"
  | .confirmCloseAllTabs => "confirmCloseAllTabs"
  | .initialRows => "initialRows"
  | .initialCols => "initialCols"
  | .rowsToScroll => "rowsToScroll"
  | .initialPosition => "initialPosition"
  | .showTitleInTitlebar => "showTerminalTitleInTitlebar"
  | .showTabsInTitlebar => "showTabsInTitlebar"
  | .wordDelimiters => "wordDelimiters"
  | .copyOnSelect => "copyOnSelect"
  | .copyFormatting => "copyFormatting"
  | .launchMode => "launchMode"
  | .theme => "theme"
  | .tabWidthMode => "tabWidthMode"
  | .snapToGridOnResize => "snapToGridOnResize"
  | .debugFeatures => "debugFeatures"

/-- Observe one settings field of a `GlobalAppSettings`. -/
def getField : SettingsField → GlobalAppSettings → FieldVal
  | .defaultProfile, s => .s s.DefaultProfile
  | .alwaysShowTabs, s => .b s.AlwaysShowTabs
  | .confirmCloseAllTabs, s => .b s.ConfirmCloseAllTabs
  | .initialRows, s => .i s.InitialRows
  | .initialCols, s => .i s.InitialCols
  | .rowsToScroll, s => .i s.RowsToScroll
  | .initialPosition, s => .lp s.InitialPosition
  | .showTitleInTitlebar, s => .b s.ShowTitleInTitlebar
  | .showTabsInTitlebar, s => .b s.ShowTabsInTitlebar
  | .wordDelimiters, s => .s s.WordDelimiters
  | .copyOnSelect, s => .b s.CopyOnSelect
  | .copyFormatting, s => .b s.CopyFormatting
  | .launchMode, s => .lm s.LaunchMode
  | .theme, s => .th s.Theme
  | .tabWidthMode, s => .twm s.TabWidthMode
  | .snapToGridOnResize, s => .b s.SnapToGridOnResize
  | .debugFeatures, s => .b s.DebugFeatures

/-- The conversion `LayerJson` applies to each field's document: the
field's `ConversionTrait::FromJson` for the typed fields, and the manual
rule for `rowsToScroll` (an `isInt` value is taken as-is, any other
non-null value means 0). -/
def fieldConv : SettingsField → JValue → Except JError FieldVal
  | .defaultProfile, v => (JsonUtils.traitGuid.FromJson v).map .s
  | .alwaysShowTabs, v => (JsonUtils.traitBool.FromJson v).map .b
  | .confirmCloseAllTabs, v => (JsonUtils.traitBool.FromJson v).map .b
  | .initialRows, v => (JsonUtils.traitInt.FromJson v).map .i
  | .initialCols, v => (JsonUtils.traitInt.FromJson v).map .i
  | .rowsToScroll, v => if v.isInt then (jAsInt v).map .i else .ok (.i 0)
  | .initialPosition, v => (traitLaunchPosition.FromJson v).map .lp
  | .showTitleInTitlebar, v => (JsonUtils.traitBool.FromJson v).map .b
  | .showTabsInTitlebar, v => (JsonUtils.traitBool.FromJson v).map .b
  | .wordDelimiters, v => (JsonUtils.traitWString.FromJson v).map .s
  | .copyOnSelect, v => (JsonUtils.traitBool.FromJson v).map .b
  | .copyFormatting, v => (JsonUtils.traitBool.FromJson v).map .b
  | .launchMode, v => (traitLaunchMode.FromJson v).map .lm
  | .theme, v => (traitTheme.FromJson v).map .th
  | .tabWidthMode, v => (traitTabWidthMode.FromJson v).map .twm
  | .snapToGridOnResize, v => (JsonUtils.traitBool.FromJson v).map .b
  | .debugFeatures, v => (JsonUtils.traitBool.FromJson v).map .b

/-- Key lookup ignoring an explicitly null value: the situations in
which `GetValueForKey` (and the manual blocks) actually overwrite a
field are exactly those where this returns `some`. -/
def lookupNN (d : List (String × JValue)) (key : String) : Option JValue :=
  match lookupJ d key with
  | some v => if v.isNull then none else some v
  | none => none

/-- All keys `LayerJson` knows about, in source order. -/
def layerKeys : List String :=
  ["defaultProfile", "alwaysShowTabs", "confirmCloseAllTabs", "initialRows",
   "initialCols", "rowsToScroll", "initialPosition",
   "showTerminalTitleInTitlebar", "showTabsInTitlebar", "wordDelimiters",
   "copyOnSelect", "copyFormatting", "launchMode", "theme", "tabWidthMode",
   "snapToGridOnResize", "debugFeatures", "keybindings"]

/-- `asInt` with 0 for the (unreachable under `isInt`) failure case;
used to state what the `rowsToScroll` block assigns. -/
def asIntD (v : JValue) : Int :=
  match jAsInt v with
  | .ok n => n
  | .error _ => 0

/-- What the `rowsToScroll` block of `LayerJson` leaves in the field,
given its prior value (`jAsInt` cannot fail under the `isInt` guard, so
the block is equivalent to this total function). -/
def rtsVal (json : JValue) (old : Int) : Int :=
  if jTruthy (jIndex json "rowsToScroll") then
    if (jIndex json "rowsToScroll").isInt then asIntD (jIndex json "rowsToScroll") else 0
  else old

/-- A trivial keybindings sub-layering (no warnings), used for concrete
instantiations. -/
def kb0 : JValue → List Nat := fun _ => []

/-- Concrete first layer document for instantiations. -/
def d1c : List (String × JValue) := [("initialRows", .int 24)]

/-- Concrete second layer document for instantiations. -/
def d2c : List (String × JValue) := [("initialCols", .int 80)]

/-- `defaultSettings` after layering `d1c`. -/
def s1c : GlobalAppSettings := { defaultSettings with InitialRows := 24 }

/-- `s1c` after layering `d2c`. -/
def s2c : GlobalAppSettings := { s1c with InitialCols := 80 }

/-- Characterization of one `GetValueForKey` statement of `LayerJson`:
the statement did not throw, and the field afterwards holds what the
call left in its by-reference target. -/
def stepChar {T : Type} (tr : JsonUtils.ConversionTrait T) (json : JValue)
    (key : String) (tOld tNew : T) : Prop :=
  (∃ b, (JsonUtils.GetValueForKey tr json key tOld).1 = .ok b)
  ∧ tNew = (JsonUtils.GetValueForKey tr json key tOld).2

/-! ## Helper lemmas -/

namespace JsonUtils

theorem GetValue_null {T : Type} (tr : ConversionTrait T) (doc : JValue) (t : T)
    (h : doc.isNull = true) : GetValue tr doc t = (.ok false, t) := by
  simp [GetValue, jTruthy, h]

theorem GetValue_mismatch {T : Type} (tr : ConversionTrait T) (doc : JValue) (t : T)
    (h : doc.isNull = false) (hc : tr.CanConvert doc = false) :
    GetValue tr doc t = (.error .typeMismatch, t) := by
  simp [GetValue, jTruthy, h, hc]

theorem GetValue_conv_ok {T : Type} (tr : ConversionTrait T) (doc : JValue) (t : T)
    {v : T} (h : doc.isNull = false) (hc : tr.CanConvert doc = true)
    (hf : tr.FromJson doc = .ok v) : GetValue tr doc t = (.ok true, v) := by
  simp [GetValue, jTruthy, h, hc, hf]

theorem GetValue_conv_err {T : Type} (tr : ConversionTrait T) (doc : JValue) (t : T)
    {e : JError} (h : doc.isNull = false) (hc : tr.CanConvert doc = true)
    (hf : tr.FromJson doc = .error e) : GetValue tr doc t = (.error e, t) := by
  simp [GetValue, jTruthy, h, hc, hf]

theorem gvfk_absent {T : Type} (tr : ConversionTrait T) (d : List (String × JValue))
    (key : String) (t : T) (h : lookupJ d key = none) :
    GetValueForKey tr (.obj d) key t = (.ok false, t) := by
  simp [GetValueForKey, jFind, h]

theorem gvfk_null {T : Type} (tr : ConversionTrait T) (d : List (String × JValue))
    (key : String) (t : T) {v : JValue} (h : lookupJ d key = some v)
    (hn : v.isNull = true) : GetValueForKey tr (.obj d) key t = (.ok false, t) := by
  simp [GetValueForKey, jFind, h, GetValue_null tr v t hn]

theorem gvfk_ok {T : Type} (tr : ConversionTrait T) (d : List (String × JValue))
    (key : String) (t : T) {v : JValue} {w : T} (h : lookupJ d key = some v)
    (hn : v.isNull = false) (hc : tr.CanConvert v = true)
    (hf : tr.FromJson v = .ok w) :
    GetValueForKey tr (.obj d) key t = (.ok true, w) := by
  simp [GetValueForKey, jFind, h, GetValue_conv_ok tr v t hn hc hf]

theorem gvfk_mismatch {T : Type} (tr : ConversionTrait T) (d : List (String × JValue))
    (key : String) (t : T) {v : JValue} (h : lookupJ d key = some v)
    (hn : v.isNull = false) (hc : tr.CanConvert v = false) :
    GetValueForKey tr (.obj d) key t = (.error (.keyed key .typeMismatch), t) := by
  simp [GetValueForKey, jFind, h, GetValue_mismatch tr v t hn hc]

theorem gvfk_conv_err {T : Type} (tr : ConversionTrait T) (d : List (String × JValue))
    (key : String) (t : T) {v : JValue} {e : JError} (h : lookupJ d key = some v)
    (hn : v.isNull = false) (hc : tr.CanConvert v = true)
    (hf : tr.FromJson v = .error e) :
    GetValueForKey tr (.obj d) key t = (.error (.keyed key e), t) := by
  simp [GetValueForKey, jFind, h, GetValue_conv_err tr v t hn hc hf]

end JsonUtils

theorem isNull_eq_null {v : JValue} (h : v.isNull = true) : v = .null := by
  cases v <;> simp [JValue.isNull] at h ⊢

theorem lookupNN_some {d : List (String × JValue)} {key : String} {v : JValue}
    (h : lookupNN d key = some v) :
    lookupJ d key = some v ∧ v.isNull = false := by
  unfold lookupNN at h
  cases hl : lookupJ d key with
  | none => rw [hl] at h; exact absurd h (by simp)
  | some w =>
    rw [hl] at h
    cases hn : w.isNull with
    | true => simp [hn] at h
    | false => simp [hn] at h; exact ⟨by rw [h], h ▸ hn⟩

theorem lookupNN_none {d : List (String × JValue)} {key : String}
    (h : lookupNN d key = none) :
    lookupJ d key = none ∨ ∃ v, lookupJ d key = some v ∧ v.isNull = true := by
  unfold lookupNN at h
  cases hl : lookupJ d key with
  | none => exact .inl rfl
  | some w =>
    rw [hl] at h
    cases hn : w.isNull with
    | true => exact .inr ⟨w, rfl, hn⟩
    | false => simp [hn] at h

theorem jAsInt_of_isInt {v : JValue} (h : v.isInt = true) :
    jAsInt v = .ok (asIntD v) := by
  cases v <;> simp [JValue.isInt] at h
  case int n => simp [jAsInt, asIntD, h.1, h.2]

namespace JsonUtils

theorem gvfk_fst_ok {T : Type} {tr : ConversionTrait T} {d : List (String × JValue)}
    {key : String} {t : T} {b : Bool}
    (h : (GetValueForKey tr (.obj d) key t).1 = .ok b) :
    (∀ v, lookupNN d key = some v →
      tr.FromJson v = .ok ((GetValueForKey tr (.obj d) key t).2))
    ∧ (lookupNN d key = none → (GetValueForKey tr (.obj d) key t).2 = t) := by
  constructor
  · intro v hv
    obtain ⟨hl, hn⟩ := lookupNN_some hv
    cases hc : tr.CanConvert v with
    | false => rw [gvfk_mismatch tr d key t hl hn hc] at h; exact absurd h (by simp)
    | true =>
      cases hf : tr.FromJson v with
      | error e => rw [gvfk_conv_err tr d key t hl hn hc hf] at h; exact absurd h (by simp)
      | ok w => rw [gvfk_ok tr d key t hl hn hc hf]
  · intro hn
    rcases lookupNN_none hn with hl | ⟨v, hl, hnl⟩
    · rw [gvfk_absent tr d key t hl]
    · rw [gvfk_null tr d key t hl hnl]

end JsonUtils

theorem stepChar_present {T : Type} {tr : JsonUtils.ConversionTrait T}
    {d : List (String × JValue)} {key : String} {tOld tNew : T}
    (hc : stepChar tr (.obj d) key tOld tNew) :
    (∀ v, lookupNN d key = some v → tr.FromJson v = .ok tNew)
    ∧ (lookupNN d key = none → tNew = tOld) := by
  obtain ⟨⟨b, hok⟩, heq⟩ := hc
  have hg := JsonUtils.gvfk_fst_ok hok
  exact ⟨fun v hv => heq ▸ hg.1 v hv, fun hn => heq ▸ hg.2 hn⟩

theorem kvmLookup_eq_find {T : Type} (name : String) (l : List (String × T)) (dflt : T) :
    JsonUtils.kvmLookup name l dflt
      = ((l.find? (fun q => q.1 == name)).map Prod.snd).getD dflt := by
  induction l with
  | nil => rfl
  | cons p ps ih =>
    by_cases hp : p.1 = name
    · simp [JsonUtils.kvmLookup, List.find?, hp]
    · simp [JsonUtils.kvmLookup, List.find?, hp, ih, beq_eq_false_iff_ne.mpr hp]

theorem assignPositions_at_two (l : List String) (r : LaunchPosition) :
    assignPositions l 2 r = r := by
  cases l <;> simp [assignPositions]

theorem assignPositions_closed (toks : List String) :
    assignPositions toks 0 ⟨none, none⟩
      = ⟨(toks.get? 0).bind stoi?, (toks.get? 1).bind stoi?⟩ := by
  match toks with
  | [] => rfl
  | [t0] =>
    cases h0 : stoi? t0 <;> simp [assignPositions, h0]
  | t0 :: t1 :: rest =>
    cases h0 : stoi? t0 <;> cases h1 : stoi? t1 <;>
      simp [assignPositions, h0, h1, assignPositions_at_two]

/-! ## Claims -/

/--
C2: for every conversion trait and document: a null document makes
`GetValue` report false with the target untouched; a non-null document
failing `CanConvert` raises `TypeMismatch` with the target untouched; a
non-null, convertible document whose conversion produces `v` makes
`GetValue` assign `v` and report true.
-/
theorem claim_C2_getValue (T : Type) (tr : JsonUtils.ConversionTrait T)
    (doc : JValue) (target : T) :
    (doc.isNull = true → JsonUtils.GetValue tr doc target = (.ok false, target))
    ∧ (doc.isNull = false → tr.CanConvert doc = false →
        JsonUtils.GetValue tr doc target = (.error .typeMismatch, target))
    ∧ (doc.isNull = false → tr.CanConvert doc = true → ∀ v, tr.FromJson doc = .ok v →
        JsonUtils.GetValue tr doc target = (.ok true, v)) :=
  ⟨fun h => JsonUtils.GetValue_null tr doc target h,
   fun h hc => JsonUtils.GetValue_mismatch tr doc target h hc,
   fun h hc _v hf => JsonUtils.GetValue_conv_ok tr doc target h hc hf⟩

/-- Witness for C2 at `T = Int`, `doc = 5`. -/
theorem claim_C2_getValue_witness :
    JsonUtils.GetValue JsonUtils.traitInt (.int 5) (0 : Int) = (.ok true, 5) :=
  (claim_C2_getValue Int JsonUtils.traitInt (.int 5) 0).2.2 (by decide) (by decide) 5 (by decide)

/--
C3: the `std::optional` overload of `GetValue` maps an explicitly null
document to "absent" (returning true), a non-null convertible document
to "present(converted)" (returning true), and an omitted key during
keyed extraction leaves the optional target (present or absent)
unchanged.
-/
theorem claim_C3_optional (T : Type) [Inhabited T] (tr : JsonUtils.ConversionTrait T)
    (doc : JValue) (target : Option T) (d : List (String × JValue)) (key : String) :
    (doc.isNull = true → JsonUtils.GetValueOpt tr doc target = (.ok true, none))
    ∧ (doc.isNull = false → tr.CanConvert doc = true → ∀ v, tr.FromJson doc = .ok v →
        JsonUtils.GetValueOpt tr doc target = (.ok true, some v))
    ∧ (lookupJ d key = none →
        JsonUtils.GetValueForKeyOpt tr (.obj d) key target = (.ok false, target)) := by
  refine ⟨fun h => by simp [JsonUtils.GetValueOpt, h], fun h hc v hf => ?_, fun h => ?_⟩
  · simp [JsonUtils.GetValueOpt, h,
      JsonUtils.GetValue_conv_ok tr doc (default : T) h hc hf]
  · simp [JsonUtils.GetValueForKeyOpt, jFind, h]

/-- Witness for C3 at `T = Int`: null ↦ absent, `7` ↦ present 7, absent
key ↦ unchanged. -/
theorem claim_C3_optional_witness :
    JsonUtils.GetValueOpt JsonUtils.traitInt .null (some (3 : Int)) = (.ok true, none)
    ∧ JsonUtils.GetValueOpt JsonUtils.traitInt (.int 7) (some (3 : Int)) = (.ok true, some 7)
    ∧ JsonUtils.GetValueForKeyOpt JsonUtils.traitInt (.obj []) "k" (some (3 : Int))
        = (.ok false, some 3) :=
  ⟨(claim_C3_optional Int JsonUtils.traitInt .null (some 3) [] "k").1 (by decide),
   (claim_C3_optional Int JsonUtils.traitInt (.int 7) (some 3) [] "k").2.1
     (by decide) (by decide) 7 (by decide),
   (claim_C3_optional Int JsonUtils.traitInt .null (some 3) [] "k").2.2 rfl⟩

/--
C4: enum conversion via `KeyValueMapper` returns the value of the first
pair whose name equals the string (String equality being exact and
case-sensitive), and silently falls back to the first pair's value when
nothing matches; in particular the theme string "blue" converts to
`ElementTheme::Default` without failing.
-/
theorem claim_C4_enumMapping :
    (∀ (T : Type) (m0 : String × T) (rest : List (String × T)) (name : String),
      JsonUtils.kvmFromJson m0 rest (.str name)
        = .ok ((((m0 :: rest).find? (fun q => q.1 == name)).map Prod.snd).getD m0.2))
    ∧ traitTheme.FromJson (.str "blue") = .ok .Default
    ∧ JsonUtils.GetValue traitTheme (.str "blue") ElementTheme.Dark = (.ok true, .Default) := by
  refine ⟨fun T m0 rest name => ?_, by decide, by decide⟩
  simp [JsonUtils.kvmFromJson, getStringView, kvmLookup_eq_find]

/--
C5: when `GetValueForKey` finds the key but the conversion raises an
error, the error is re-raised as a `KeyedException` carrying the key and
the inner error; concretely, key "initialRows" holding the string
"oops" against an integer target raises the keyed error naming
"initialRows" with the underlying `TypeMismatch`, whose message renders
both.
-/
theorem claim_C5_keyedWrapping (T : Type) (tr : JsonUtils.ConversionTrait T)
    (d : List (String × JValue)) (key : String) (t : T) :
    (∀ v e, lookupJ d key = some v → (JsonUtils.GetValue tr v t).1 = .error e →
      (JsonUtils.GetValueForKey tr (.obj d) key t).1 = .error (.keyed key e))
    ∧ (∀ r : Int,
        (JsonUtils.GetValueForKey JsonUtils.traitInt
            (.obj [("initialRows", .str "oops")]) "initialRows" r).1
          = .error (.keyed "initialRows" .typeMismatch))
    ∧ (JError.keyed "initialRows" .typeMismatch).what
        = "error parsing \"initialRows\": invalid type" := by
  refine ⟨fun v e hl he => ?_,
    fun r => by
      rw [@JsonUtils.gvfk_mismatch Int JsonUtils.traitInt
        [("initialRows", JValue.str "oops")] "initialRows" r (JValue.str "oops")
        rfl rfl rfl],
    by decide⟩
  simp [JsonUtils.GetValueForKey, jFind, hl, he]

/-- Witness for C5: the concrete "initialRows"/"oops" keyed failure,
obtained from the general wrapping statement. -/
theorem claim_C5_keyedWrapping_witness :
    (JsonUtils.GetValueForKey JsonUtils.traitInt
        (.obj [("initialRows", .str "oops")]) "initialRows" (0 : Int)).1
      = .error (.keyed "initialRows" .typeMismatch) :=
  (claim_C5_keyedWrapping Int JsonUtils.traitInt [("initialRows", .str "oops")]
    "initialRows" 0).1 (.str "oops") .typeMismatch rfl (by decide)

/--
C7: atomicity — whenever `GetValue`, its optional overload, or
`GetValueForKey` fails (reports not-present or raises an error), the
destination holds exactly its prior value afterwards; on success it
holds exactly the newly converted value.
-/
theorem claim_C7_atomicity (T : Type) [Inhabited T] (tr : JsonUtils.ConversionTrait T)
    (doc : JValue) (d : List (String × JValue)) (key : String) (target : T)
    (targetO : Option T) :
    ((JsonUtils.GetValue tr doc target).1 = .ok false →
      (JsonUtils.GetValue tr doc target).2 = target)
    ∧ (∀ e, (JsonUtils.GetValue tr doc target).1 = .error e →
        (JsonUtils.GetValue tr doc target).2 = target)
    ∧ ((JsonUtils.GetValue tr doc target).1 = .ok true →
        tr.FromJson doc = .ok ((JsonUtils.GetValue tr doc target).2))
    ∧ ((JsonUtils.GetValueForKey tr (.obj d) key target).1 = .ok false →
        (JsonUtils.GetValueForKey tr (.obj d) key target).2 = target)
    ∧ (∀ e, (JsonUtils.GetValueForKey tr (.obj d) key target).1 = .error e →
        (JsonUtils.GetValueForKey tr (.obj d) key target).2 = target)
    ∧ ((JsonUtils.GetValueForKey tr (.obj d) key target).1 = .ok true →
        ∃ found, jFind (.obj d) key = some found
          ∧ tr.FromJson found = .ok ((JsonUtils.GetValueForKey tr (.obj d) key target).2))
    ∧ ((JsonUtils.GetValueOpt tr doc targetO).1 = .ok false →
        (JsonUtils.GetValueOpt tr doc targetO).2 = targetO)
    ∧ (∀ e, (JsonUtils.GetValueOpt tr doc targetO).1 = .error e →
        (JsonUtils.GetValueOpt tr doc targetO).2 = targetO) := by
  have hGV : ∀ t : T,
      ((JsonUtils.GetValue tr doc t).1 = .ok false → (JsonUtils.GetValue tr doc t).2 = t)
      ∧ (∀ e, (JsonUtils.GetValue tr doc t).1 = .error e → (JsonUtils.GetValue tr doc t).2 = t)
      ∧ ((JsonUtils.GetValue tr doc t).1 = .ok true →
          tr.FromJson doc = .ok ((JsonUtils.GetValue tr doc t).2)) := by
    intro t
    cases hn : doc.isNull with
    | true => simp [JsonUtils.GetValue_null tr doc t hn]
    | false =>
      cases hc : tr.CanConvert doc with
      | false => simp [JsonUtils.GetValue_mismatch tr doc t hn hc]
      | true =>
        cases hf : tr.FromJson doc with
        | ok v => simp [JsonUtils.GetValue_conv_ok tr doc t hn hc hf, hf]
        | error e => simp [JsonUtils.GetValue_conv_err tr doc t hn hc hf]
  have hGVFK :
      ((JsonUtils.GetValueForKey tr (.obj d) key target).1 = .ok false →
        (JsonUtils.GetValueForKey tr (.obj d) key target).2 = target)
      ∧ (∀ e, (JsonUtils.GetValueForKey tr (.obj d) key target).1 = .error e →
          (JsonUtils.GetValueForKey tr (.obj d) key target).2 = target)
      ∧ ((JsonUtils.GetValueForKey tr (.obj d) key target).1 = .ok true →
          ∃ found, jFind (.obj d) key = some found
            ∧ tr.FromJson found = .ok ((JsonUtils.GetValueForKey tr (.obj d) key target).2)) := by
    cases hl : lookupJ d key with
    | none => simp [JsonUtils.gvfk_absent tr d key target hl]
    | some v =>
      cases hn : v.isNull with
      | true => simp [JsonUtils.gvfk_null tr d key target hl hn]
      | false =>
        cases hc : tr.CanConvert v with
        | false => simp [JsonUtils.gvfk_mismatch tr d key target hl hn hc]
        | true =>
          cases hf : tr.FromJson v with
          | ok w =>
            refine ⟨?_, ?_, ?_⟩ <;>
              simp [JsonUtils.gvfk_ok tr d key target hl hn hc hf, jFind, hl, hf]
          | error e => simp [JsonUtils.gvfk_conv_err tr d key target hl hn hc hf]
  have hOpt :
      ((JsonUtils.GetValueOpt tr doc targetO).1 = .ok false →
        (JsonUtils.GetValueOpt tr doc targetO).2 = targetO)
      ∧ (∀ e, (JsonUtils.GetValueOpt tr doc targetO).1 = .error e →
          (JsonUtils.GetValueOpt tr doc targetO).2 = targetO) := by
    cases hn : doc.isNull with
    | true => simp [JsonUtils.GetValueOpt, hn]
    | false =>
      cases hp : (JsonUtils.GetValue tr doc (default : T)).1 with
      | ok b => cases b <;> simp [JsonUtils.GetValueOpt, hn, hp]
      | error e => simp [JsonUtils.GetValueOpt, hn, hp]
  exact ⟨(hGV target).1, (hGV target).2.1, (hGV target).2.2,
    hGVFK.1, hGVFK.2.1, hGVFK.2.2, hOpt.1, hOpt.2⟩

/-- Witness for C7 at `T = Int`: a type mismatch leaves the target at 3,
and a success replaces it. -/
theorem claim_C7_atomicity_witness :
    (JsonUtils.GetValue JsonUtils.traitInt (.str "x") (3 : Int)).2 = 3
    ∧ JsonUtils.traitInt.FromJson (.int 9)
        = .ok ((JsonUtils.GetValue JsonUtils.traitInt (.int 9) (3 : Int)).2) :=
  ⟨(claim_C7_atomicity Int JsonUtils.traitInt (.str "x") [] "k" 3 none).2.1
      .typeMismatch (by decide),
   (claim_C7_atomicity Int JsonUtils.traitInt (.int 9) [] "k" 3 none).2.2.1 (by decide)⟩

/--
C8: launch-position parsing — "100,50" gives (100, 50); ",50" and
"abc,50" give (absent, 50); "," gives (absent, absent); "100,50,999"
gives (100, 50); in general only the first two comma-separated tokens
are read and each coordinate is set exactly when `stoi` accepts its
token.
-/
theorem claim_C8_launchPosition :
    (∀ s : String, launchPositionFromJson (.str s)
        = .ok ⟨((getlineTokens s).get? 0).bind stoi?, ((getlineTokens s).get? 1).bind stoi?⟩)
    ∧ launchPositionFromJson (.str "100,50") = .ok ⟨some 100, some 50⟩
    ∧ launchPositionFromJson (.str ",50") = .ok ⟨none, some 50⟩
    ∧ launchPositionFromJson (.str "abc,50") = .ok ⟨none, some 50⟩
    ∧ launchPositionFromJson (.str ",") = .ok ⟨none, none⟩
    ∧ launchPositionFromJson (.str "100,50,999") = .ok ⟨some 100, some 50⟩ := by
  refine ⟨fun s => ?_, by decide, by decide, by decide, by decide, by decide⟩
  simp [launchPositionFromJson, jAsString, assignPositions_closed]

theorem rtsStep_eq (json : JValue) (s : GlobalAppSettings) :
    GlobalAppSettings.rtsStep json s
      = (.ok (), { s with RowsToScroll := rtsVal json s.RowsToScroll }) := by
  unfold GlobalAppSettings.rtsStep rtsVal
  cases ht : jTruthy (jIndex json "rowsToScroll") with
  | false => simp [ht]
  | true =>
    cases hi : (jIndex json "rowsToScroll").isInt with
    | false => simp [ht, hi]
    | true => simp [ht, hi, jAsInt_of_isInt hi]

/-- Characterization of a successful `LayerJson` run: every typed field
went through its `GetValueForKey` without throwing and holds what that
call produced, `RowsToScroll` holds what the manual block computes, and
the keybindings warnings were extended exactly when the "keybindings"
key held a non-null value. -/
theorem layerJson_ok_char (kb : JValue → List Nat) (json : JValue)
    (s s' : GlobalAppSettings) (u : Unit)
    (h : GlobalAppSettings.LayerJson kb json s = (.ok u, s')) :
    stepChar JsonUtils.traitGuid json "defaultProfile" s.DefaultProfile s'.DefaultProfile
    ∧ stepChar JsonUtils.traitBool json "alwaysShowTabs" s.AlwaysShowTabs s'.AlwaysShowTabs
    ∧ stepChar JsonUtils.traitBool json "confirmCloseAllTabs" s.ConfirmCloseAllTabs s'.ConfirmCloseAllTabs
    ∧ stepChar JsonUtils.traitInt json "initialRows" s.InitialRows s'.InitialRows
    ∧ stepChar JsonUtils.traitInt json "initialCols" s.InitialCols s'.InitialCols
    ∧ s'.RowsToScroll = rtsVal json s.RowsToScroll
    ∧ stepChar traitLaunchPosition json "initialPosition" s.InitialPosition s'.InitialPosition
    ∧ stepChar JsonUtils.traitBool json "showTerminalTitleInTitlebar" s.ShowTitleInTitlebar s'.ShowTitleInTitlebar
    ∧ stepChar JsonUtils.traitBool json "showTabsInTitlebar" s.ShowTabsInTitlebar s'.ShowTabsInTitlebar
    ∧ stepChar JsonUtils.traitWString json "wordDelimiters" s.WordDelimiters s'.WordDelimiters
    ∧ stepChar JsonUtils.traitBool json "copyOnSelect" s.CopyOnSelect s'.CopyOnSelect
    ∧ stepChar JsonUtils.traitBool json "copyFormatting" s.CopyFormatting s'.CopyFormatting
    ∧ stepChar traitLaunchMode json "launchMode" s.LaunchMode s'.LaunchMode
    ∧ stepChar traitTheme json "theme" s.Theme s'.Theme
    ∧ stepChar traitTabWidthMode json "tabWidthMode" s.TabWidthMode s'.TabWidthMode
    ∧ stepChar JsonUtils.traitBool json "snapToGridOnResize" s.SnapToGridOnResize s'.SnapToGridOnResize
    ∧ stepChar JsonUtils.traitBool json "debugFeatures" s.DebugFeatures s'.DebugFeatures
    ∧ s'.keybindingsWarnings = s.keybindingsWarnings
        ++ (if jTruthy (jIndex json "keybindings") then kb (jIndex json "keybindings") else []) := by
  unfold GlobalAppSettings.LayerJson at h
  simp only [GlobalAppSettings.chain, GlobalAppSettings.stepOf, rtsStep_eq] at h
  repeat' split at h
  all_goals first
    | exact Except.noConfusion (congrArg Prod.fst h)
    | skip
  obtain hs := (congrArg Prod.snd h).symm
  subst hs
  by_cases hkb : jTruthy (jIndex json "keybindings") <;>
    refine ⟨⟨⟨_, by assumption⟩, by simp [GlobalAppSettings.kbStep, hkb]⟩,
      ⟨⟨_, by assumption⟩, by simp [GlobalAppSettings.kbStep, hkb]⟩,
      ⟨⟨_, by assumption⟩, by simp [GlobalAppSettings.kbStep, hkb]⟩,
      ⟨⟨_, by assumption⟩, by simp [GlobalAppSettings.kbStep, hkb]⟩,
      ⟨⟨_, by assumption⟩, by simp [GlobalAppSettings.kbStep, hkb]⟩,
      by simp [GlobalAppSettings.kbStep, hkb],
      ⟨⟨_, by assumption⟩, by simp [GlobalAppSettings.kbStep, hkb]⟩,
      ⟨⟨_, by assumption⟩, by simp [GlobalAppSettings.kbStep, hkb]⟩,
      ⟨⟨_, by assumption⟩, by simp [GlobalAppSettings.kbStep, hkb]⟩,
      ⟨⟨_, by assumption⟩, by simp [GlobalAppSettings.kbStep, hkb]⟩,
      ⟨⟨_, by assumption⟩, by simp [GlobalAppSettings.kbStep, hkb]⟩,
      ⟨⟨_, by assumption⟩, by simp [GlobalAppSettings.kbStep, hkb]⟩,
      ⟨⟨_, by assumption⟩, by simp [GlobalAppSettings.kbStep, hkb]⟩,
      ⟨⟨_, by assumption⟩, by simp [GlobalAppSettings.kbStep, hkb]⟩,
      ⟨⟨_, by assumption⟩, by simp [GlobalAppSettings.kbStep, hkb]⟩,
      ⟨⟨_, by assumption⟩, by simp [GlobalAppSettings.kbStep, hkb]⟩,
      ⟨⟨_, by assumption⟩, by simp [GlobalAppSettings.kbStep, hkb]⟩,
      by simp [GlobalAppSettings.kbStep, hkb]⟩

/-- A successful `LayerJson` run maps a key present with a non-null
value to the field's converted value. -/
theorem layer_field_present (kb : JValue → List Nat) (d : List (String × JValue))
    (s s' : GlobalAppSettings) (u : Unit) (f : SettingsField) (v : JValue)
    (h : GlobalAppSettings.LayerJson kb (.obj d) s = (.ok u, s'))
    (hv : lookupNN d (fieldKey f) = some v) :
    fieldConv f v = .ok (getField f s') := by
  obtain ⟨h1, h2, h3, h4, h5, h6, h7, h8, h9, h10, h11, h12, h13, h14, h15, h16, h17, h18⟩ :=
    layerJson_ok_char kb (.obj d) s s' u h
  cases f
  case defaultProfile =>
    simp only [fieldKey] at hv
    simp [fieldConv, getField, Except.map, (stepChar_present h1).1 v hv]
  case alwaysShowTabs =>
    simp only [fieldKey] at hv
    simp [fieldConv, getField, Except.map, (stepChar_present h2).1 v hv]
  case confirmCloseAllTabs =>
    simp only [fieldKey] at hv
    simp [fieldConv, getField, Except.map, (stepChar_present h3).1 v hv]
  case initialRows =>
    simp only [fieldKey] at hv
    simp [fieldConv, getField, Except.map, (stepChar_present h4).1 v hv]
  case initialCols =>
    simp only [fieldKey] at hv
    simp [fieldConv, getField, Except.map, (stepChar_present h5).1 v hv]
  case rowsToScroll =>
    simp only [fieldKey] at hv
    obtain ⟨hl, hn⟩ := lookupNN_some hv
    have hidx : jIndex (.obj d) "rowsToScroll" = v := by simp [jIndex, jFind, hl]
    have h6x : s'.RowsToScroll = (if v.isInt then asIntD v else 0) := by
      rw [h6]; unfold rtsVal; rw [hidx]; simp [jTruthy, hn]
    cases hi : v.isInt with
    | false => simp [fieldConv, getField, hi, h6x, Except.map]
    | true => simp [fieldConv, getField, hi, h6x, jAsInt_of_isInt hi, Except.map]
  case initialPosition =>
    simp only [fieldKey] at hv
    simp [fieldConv, getField, Except.map, (stepChar_present h7).1 v hv]
  case showTitleInTitlebar =>
    simp only [fieldKey] at hv
    simp [fieldConv, getField, Except.map, (stepChar_present h8).1 v hv]
  case showTabsInTitlebar =>
    simp only [fieldKey] at hv
    simp [fieldConv, getField, Except.map, (stepChar_present h9).1 v hv]
  case wordDelimiters =>
    simp only [fieldKey] at hv
    simp [fieldConv, getField, Except.map, (stepChar_present h10).1 v hv]
  case copyOnSelect =>
    simp only [fieldKey] at hv
    simp [fieldConv, getField, Except.map, (stepChar_present h11).1 v hv]
  case copyFormatting =>
    simp only [fieldKey] at hv
    simp [fieldConv, getField, Except.map, (stepChar_present h12).1 v hv]
  case launchMode =>
    simp only [fieldKey] at hv
    simp [fieldConv, getField, Except.map, (stepChar_present h13).1 v hv]
  case theme =>
    simp only [fieldKey] at hv
    simp [fieldConv, getField, Except.map, (stepChar_present h14).1 v hv]
  case tabWidthMode =>
    simp only [fieldKey] at hv
    simp [fieldConv, getField, Except.map, (stepChar_present h15).1 v hv]
  case snapToGridOnResize =>
    simp only [fieldKey] at hv
    simp [fieldConv, getField, Except.map, (stepChar_present h16).1 v hv]
  case debugFeatures =>
    simp only [fieldKey] at hv
    simp [fieldConv, getField, Except.map, (stepChar_present h17).1 v hv]

/-- A successful `LayerJson` run leaves every field whose key is absent
or explicitly null at its prior value. -/
theorem layer_field_unchanged (kb : JValue → List Nat) (d : List (String × JValue))
    (s s' : GlobalAppSettings) (u : Unit) (f : SettingsField)
    (h : GlobalAppSettings.LayerJson kb (.obj d) s = (.ok u, s'))
    (hn : lookupNN d (fieldKey f) = none) :
    getField f s' = getField f s := by
  obtain ⟨h1, h2, h3, h4, h5, h6, h7, h8, h9, h10, h11, h12, h13, h14, h15, h16, h17, h18⟩ :=
    layerJson_ok_char kb (.obj d) s s' u h
  cases f
  case rowsToScroll =>
    simp only [fieldKey] at hn
    have ht : jTruthy (jIndex (.obj d) "rowsToScroll") = false := by
      rcases lookupNN_none hn with hl | ⟨v, hl, hnl⟩
      · simp [jIndex, jFind, hl, jTruthy, JValue.isNull]
      · simp [jIndex, jFind, hl, jTruthy, isNull_eq_null hnl, JValue.isNull]
    simp [getField, h6, rtsVal, ht]
  case defaultProfile =>
    simp only [fieldKey] at hn
    simp [getField, (stepChar_present h1).2 hn]
  case alwaysShowTabs =>
    simp only [fieldKey] at hn
    simp [getField, (stepChar_present h2).2 hn]
  case confirmCloseAllTabs =>
    simp only [fieldKey] at hn
    simp [getField, (stepChar_present h3).2 hn]
  case initialRows =>
    simp only [fieldKey] at hn
    simp [getField, (stepChar_present h4).2 hn]
  case initialCols =>
    simp only [fieldKey] at hn
    simp [getField, (stepChar_present h5).2 hn]
  case initialPosition =>
    simp only [fieldKey] at hn
    simp [getField, (stepChar_present h7).2 hn]
  case showTitleInTitlebar =>
    simp only [fieldKey] at hn
    simp [getField, (stepChar_present h8).2 hn]
  case showTabsInTitlebar =>
    simp only [fieldKey] at hn
    simp [getField, (stepChar_present h9).2 hn]
  case wordDelimiters =>
    simp only [fieldKey] at hn
    simp [getField, (stepChar_present h10).2 hn]
  case copyOnSelect =>
    simp only [fieldKey] at hn
    simp [getField, (stepChar_present h11).2 hn]
  case copyFormatting =>
    simp only [fieldKey] at hn
    simp [getField, (stepChar_present h12).2 hn]
  case launchMode =>
    simp only [fieldKey] at hn
    simp [getField, (stepChar_present h13).2 hn]
  case theme =>
    simp only [fieldKey] at hn
    simp [getField, (stepChar_present h14).2 hn]
  case tabWidthMode =>
    simp only [fieldKey] at hn
    simp [getField, (stepChar_present h15).2 hn]
  case snapToGridOnResize =>
    simp only [fieldKey] at hn
    simp [getField, (stepChar_present h16).2 hn]
  case debugFeatures =>
    simp only [fieldKey] at hn
    simp [getField, (stepChar_present h17).2 hn]

theorem gvfk_congr {T : Type} (tr : JsonUtils.ConversionTrait T) (j1 j2 : JValue)
    (key : String) (hk : jFind j1 key = jFind j2 key) :
    ∀ t : T, JsonUtils.GetValueForKey tr j1 key t = JsonUtils.GetValueForKey tr j2 key t := by
  intro t
  unfold JsonUtils.GetValueForKey
  rw [hk]

theorem rtsStep_congr (j1 j2 : JValue)
    (hk : jFind j1 "rowsToScroll" = jFind j2 "rowsToScroll") :
    GlobalAppSettings.rtsStep j1 = GlobalAppSettings.rtsStep j2 := by
  funext s
  unfold GlobalAppSettings.rtsStep jIndex
  rw [hk]

theorem kbStep_congr (kb : JValue → List Nat) (j1 j2 : JValue)
    (hk : jFind j1 "keybindings" = jFind j2 "keybindings") :
    GlobalAppSettings.kbStep kb j1 = GlobalAppSettings.kbStep kb j2 := by
  funext s
  unfold GlobalAppSettings.kbStep jIndex
  rw [hk]

/-- `LayerJson` reads the document only through the known keys: two
documents agreeing on them are layered identically. -/
theorem layerJson_congr (kb : JValue → List Nat) (j1 j2 : JValue)
    (s : GlobalAppSettings) (hk : ∀ k ∈ layerKeys, jFind j1 k = jFind j2 k) :
    GlobalAppSettings.LayerJson kb j1 s = GlobalAppSettings.LayerJson kb j2 s := by
  have e1 := gvfk_congr JsonUtils.traitGuid j1 j2 "defaultProfile" (hk _ (by simp [layerKeys]))
  have e2 := gvfk_congr JsonUtils.traitBool j1 j2 "alwaysShowTabs" (hk _ (by simp [layerKeys]))
  have e3 := gvfk_congr JsonUtils.traitBool j1 j2 "confirmCloseAllTabs" (hk _ (by simp [layerKeys]))
  have e4 := gvfk_congr JsonUtils.traitInt j1 j2 "initialRows" (hk _ (by simp [layerKeys]))
  have e5 := gvfk_congr JsonUtils.traitInt j1 j2 "initialCols" (hk _ (by simp [layerKeys]))
  have e6 := rtsStep_congr j1 j2 (hk _ (by simp [layerKeys]))
  have e7 := gvfk_congr traitLaunchPosition j1 j2 "initialPosition" (hk _ (by simp [layerKeys]))
  have e8 := gvfk_congr JsonUtils.traitBool j1 j2 "showTerminalTitleInTitlebar" (hk _ (by simp [layerKeys]))
  have e9 := gvfk_congr JsonUtils.traitBool j1 j2 "showTabsInTitlebar" (hk _ (by simp [layerKeys]))
  have e10 := gvfk_congr JsonUtils.traitWString j1 j2 "wordDelimiters" (hk _ (by simp [layerKeys]))
  have e11 := gvfk_congr JsonUtils.traitBool j1 j2 "copyOnSelect" (hk _ (by simp [layerKeys]))
  have e12 := gvfk_congr JsonUtils.traitBool j1 j2 "copyFormatting" (hk _ (by simp [layerKeys]))
  have e13 := gvfk_congr traitLaunchMode j1 j2 "launchMode" (hk _ (by simp [layerKeys]))
  have e14 := gvfk_congr traitTheme j1 j2 "theme" (hk _ (by simp [layerKeys]))
  have e15 := gvfk_congr traitTabWidthMode j1 j2 "tabWidthMode" (hk _ (by simp [layerKeys]))
  have e16 := gvfk_congr JsonUtils.traitBool j1 j2 "snapToGridOnResize" (hk _ (by simp [layerKeys]))
  have e17 := gvfk_congr JsonUtils.traitBool j1 j2 "debugFeatures" (hk _ (by simp [layerKeys]))
  have e18 := kbStep_congr kb j1 j2 (hk _ (by simp [layerKeys]))
  unfold GlobalAppSettings.LayerJson
  simp only [GlobalAppSettings.stepOf, e1, e2, e3, e4, e5, e6, e7, e8, e9, e10,
    e11, e12, e13, e14, e15, e16, e17, e18]

theorem lookupJ_filter (P : String → Bool) (d : List (String × JValue)) (k : String)
    (hPk : P k = true) :
    lookupJ (d.filter (fun p => P p.1)) k = lookupJ d k := by
  induction d with
  | nil => rfl
  | cons p ps ih =>
    by_cases hp : p.1 = k
    · have hPp : P p.1 = true := by rw [hp]; exact hPk
      simp [List.filter, hPp, hPk, lookupJ, hp]
    · cases hP : P p.1 with
      | true => simp [List.filter, hP, lookupJ, hp, ih]
      | false => simp [List.filter, hP, lookupJ, hp, ih]

theorem lookupJ_none_of_unknown (d : List (String × JValue))
    (hunk : ∀ p ∈ d, p.1 ∉ layerKeys) (k : String) (hk : k ∈ layerKeys) :
    lookupJ d k = none := by
  induction d with
  | nil => rfl
  | cons p ps ih =>
    have hp : p.1 ≠ k := fun he => hunk p (by simp) (he ▸ hk)
    simp only [lookupJ, if_neg hp]
    exact ih fun q hq => hunk q (by simp [hq])

/--
C1 counterexample: a key that is present but holds an explicit null is
not overridden. Layering `{"initialRows": 42}` then
`{"initialRows": null}` onto a fresh destination leaves the field at 42
(the first layer's value), although "initialRows" is present in the
second document — so a `LayerJson` call does not override every field
whose key is present.
-/
theorem claim_C1_counterexample :
    lookupJ [("initialRows", JValue.null)] "initialRows" = some .null
    ∧ GlobalAppSettings.LayerJson kb0 (.obj [("initialRows", JValue.int 42)]) defaultSettings
        = (.ok (), { defaultSettings with InitialRows := 42 })
    ∧ GlobalAppSettings.LayerJson kb0 (.obj [("initialRows", JValue.null)])
          { defaultSettings with InitialRows := 42 }
        = (.ok (), { defaultSettings with InitialRows := 42 }) :=
  ⟨rfl, by decide, by decide⟩

/--
C1 (amended): for every settings field, layering D1 then D2 onto a
fresh destination yields D2's converted value when the field's key is
present in D2 *with a non-null value*, D1's converted value when the key
is absent from (or null in) D2 but present with a non-null value in D1,
and the built-in default when it is absent from (or null in) both; each
`LayerJson` call overrides exactly the fields whose keys are present
with a non-null value and leaves all other fields at their prior
values.
-/
theorem claim_C1_layering (kb : JValue → List Nat)
    (d1 d2 : List (String × JValue)) (s1 s2 : GlobalAppSettings) (u1 u2 : Unit)
    (h1 : GlobalAppSettings.LayerJson kb (.obj d1) defaultSettings = (.ok u1, s1))
    (h2 : GlobalAppSettings.LayerJson kb (.obj d2) s1 = (.ok u2, s2))
    (f : SettingsField) :
    (∀ v, lookupNN d2 (fieldKey f) = some v → fieldConv f v = .ok (getField f s2))
    ∧ (lookupNN d2 (fieldKey f) = none → ∀ v, lookupNN d1 (fieldKey f) = some v →
        fieldConv f v = .ok (getField f s2))
    ∧ (lookupNN d2 (fieldKey f) = none → lookupNN d1 (fieldKey f) = none →
        getField f s2 = getField f defaultSettings)
    ∧ (∀ (s s' : GlobalAppSettings) (u : Unit),
        GlobalAppSettings.LayerJson kb (.obj d2) s = (.ok u, s') →
        lookupNN d2 (fieldKey f) = none → getField f s' = getField f s) := by
  refine ⟨fun v hv => layer_field_present kb d2 s1 s2 u2 f v h2 hv,
    fun hn2 v hv1 => ?_, fun hn2 hn1 => ?_,
    fun s s' u h hn => layer_field_unchanged kb d2 s s' u f h hn⟩
  · rw [layer_field_unchanged kb d2 s1 s2 u2 f h2 hn2]
    exact layer_field_present kb d1 defaultSettings s1 u1 f v h1 hv1
  · rw [layer_field_unchanged kb d2 s1 s2 u2 f h2 hn2]
    exact layer_field_unchanged kb d1 defaultSettings s1 u1 f h1 hn1

/-- Witness for C1 at `D1 = {"initialRows": 24}`,
`D2 = {"initialCols": 80}`: the second layer's initialCols converts to
the final value 80. -/
theorem claim_C1_layering_witness :
    fieldConv SettingsField.initialCols (.int 80) = .ok (.i 80) :=
  (claim_C1_layering kb0 d1c d2c s1c s2c () () (by decide) (by decide)
    SettingsField.initialCols).1 (.int 80) rfl

/--
C6 counterexample: `GetRequiredValueForKey` raises its fatal failure
for the key "initialRows" although that key *is present* (holding an
explicit null), so "fails fatally if and only if the key is absent" does
not hold of the code.
-/
theorem claim_C6_counterexample :
    lookupJ [("initialRows", JValue.null)] "initialRows" = some .null
    ∧ JsonUtils.GetRequiredValueForKey JsonUtils.traitInt
          (.obj [("initialRows", JValue.null)]) "initialRows" (30 : Int)
        = (.error .requiredKeyMissing, 30) :=
  ⟨rfl, by decide⟩

/--
C6 (amended): `GetRequiredValueForKey` raises its fatal failure exactly
when `GetValueForKey` reports the value not present — the key is absent
or its value is explicitly null. When the key is present with a
non-null value it behaves exactly like `GetValueForKey` (assigning the
converted value on success and propagating conversion errors), and
never raises the fatal missing-key failure.
-/
theorem claim_C6_required (T : Type) (tr : JsonUtils.ConversionTrait T)
    (d : List (String × JValue)) (key : String) (t : T) :
    (lookupJ d key = none →
      JsonUtils.GetRequiredValueForKey tr (.obj d) key t = (.error .requiredKeyMissing, t))
    ∧ (∀ v, lookupJ d key = some v → v.isNull = true →
        JsonUtils.GetRequiredValueForKey tr (.obj d) key t = (.error .requiredKeyMissing, t))
    ∧ (∀ v, lookupJ d key = some v → v.isNull = false →
        JsonUtils.GetRequiredValueForKey tr (.obj d) key t
            = ((JsonUtils.GetValueForKey tr (.obj d) key t).1.map (fun _ => ()),
               (JsonUtils.GetValueForKey tr (.obj d) key t).2)
          ∧ (JsonUtils.GetRequiredValueForKey tr (.obj d) key t).1
              ≠ .error .requiredKeyMissing) := by
  refine ⟨fun hl => ?_, fun v hl hn => ?_, fun v hl hn => ?_⟩
  · simp [JsonUtils.GetRequiredValueForKey, JsonUtils.gvfk_absent tr d key t hl]
  · simp [JsonUtils.GetRequiredValueForKey, JsonUtils.gvfk_null tr d key t hl hn]
  · cases hc : tr.CanConvert v with
    | false =>
      simp [JsonUtils.GetRequiredValueForKey,
        JsonUtils.gvfk_mismatch tr d key t hl hn hc, Except.map]
    | true =>
      cases hf : tr.FromJson v with
      | ok w =>
        simp [JsonUtils.GetRequiredValueForKey,
          JsonUtils.gvfk_ok tr d key t hl hn hc hf, Except.map]
      | error e =>
        simp [JsonUtils.GetRequiredValueForKey,
          JsonUtils.gvfk_conv_err tr d key t hl hn hc hf, Except.map]

/-- Witness for C6: absent key ↦ fatal failure; present non-null key
"k" ↦ 7 assigned with no fatal failure. -/
theorem claim_C6_required_witness :
    JsonUtils.GetRequiredValueForKey JsonUtils.traitInt (.obj []) "k" (3 : Int)
      = (.error .requiredKeyMissing, 3)
    ∧ JsonUtils.GetRequiredValueForKey JsonUtils.traitInt
        (.obj [("k", .int 7)]) "k" (3 : Int)
      = ((JsonUtils.GetValueForKey JsonUtils.traitInt (.obj [("k", .int 7)]) "k" (3 : Int)).1.map
          (fun _ => ()),
         (JsonUtils.GetValueForKey JsonUtils.traitInt (.obj [("k", .int 7)]) "k" (3 : Int)).2) :=
  ⟨(claim_C6_required Int JsonUtils.traitInt [] "k" 3).1 rfl,
   ((claim_C6_required Int JsonUtils.traitInt [("k", .int 7)] "k" 3).2.2 (.int 7) rfl rfl).1⟩

/--
C9: unknown keys never affect a layering pass — `LayerJson` computes
the same outcome (including success/failure) as on the document
restricted to the known keys, and a document containing only unknown
keys leaves every settings field (and the warnings) unchanged without
failing.
-/
theorem claim_C9_unknownKeys (kb : JValue → List Nat) (d : List (String × JValue))
    (s : GlobalAppSettings) :
    GlobalAppSettings.LayerJson kb (.obj d) s
      = GlobalAppSettings.LayerJson kb
          (.obj (d.filter (fun p => decide (p.1 ∈ layerKeys)))) s
    ∧ ((∀ p ∈ d, p.1 ∉ layerKeys) →
        GlobalAppSettings.LayerJson kb (.obj d) s = (.ok (), s)) := by
  constructor
  · apply layerJson_congr
    intro k hkmem
    show lookupJ d k = lookupJ (d.filter (fun p => decide (p.1 ∈ layerKeys))) k
    exact (lookupJ_filter (fun q => decide (q ∈ layerKeys)) d k
      (decide_eq_true hkmem)).symm
  · intro hunk
    rw [layerJson_congr kb (.obj d) (.obj []) s
      (fun k hkmem => lookupJ_none_of_unknown d hunk k hkmem)]
    simp [GlobalAppSettings.LayerJson, GlobalAppSettings.chain, GlobalAppSettings.stepOf,
      JsonUtils.GetValueForKey, jFind, lookupJ, GlobalAppSettings.rtsStep,
      GlobalAppSettings.kbStep, jIndex, jTruthy, JValue.isNull]

/-- Witness for C9: a document with only the unknown key "zzz" layers to
no change at all. -/
theorem claim_C9_unknownKeys_witness :
    GlobalAppSettings.LayerJson kb0 (.obj [("zzz", .int 1)]) defaultSettings
      = (.ok (), defaultSettings) :=
  (claim_C9_unknownKeys kb0 [("zzz", .int 1)] defaultSettings).2 (by decide)

/--
C10: the "rowsToScroll" key bypasses typed extraction — a present
non-null value that is not an (in-range) integer sets the field to 0
without raising any error (concretely, the string "system" does), an
integer value is assigned directly, and an absent key leaves the field
unchanged.
-/
theorem claim_C10_rowsToScroll (kb : JValue → List Nat) (d : List (String × JValue))
    (s s' : GlobalAppSettings) (u : Unit)
    (h : GlobalAppSettings.LayerJson kb (.obj d) s = (.ok u, s')) :
    (∀ v, lookupJ d "rowsToScroll" = some v → v.isNull = false → v.isInt = false →
      s'.RowsToScroll = 0)
    ∧ (∀ n, lookupJ d "rowsToScroll" = some (.int n) → (JValue.int n).isInt = true →
        s'.RowsToScroll = n)
    ∧ (lookupJ d "rowsToScroll" = none → s'.RowsToScroll = s.RowsToScroll)
    ∧ GlobalAppSettings.LayerJson kb0 (.obj [("rowsToScroll", .str "system")]) defaultSettings
        = (.ok (), { defaultSettings with RowsToScroll := 0 }) := by
  have h6 := (layerJson_ok_char kb (.obj d) s s' u h).2.2.2.2.2.1
  refine ⟨fun v hl hn hni => ?_, fun n hl hint => ?_, fun hl => ?_, by decide⟩
  · have hidx : jIndex (.obj d) "rowsToScroll" = v := by simp [jIndex, jFind, hl]
    rw [h6]; unfold rtsVal; rw [hidx]; simp [jTruthy, hn, hni]
  · have hidx : jIndex (.obj d) "rowsToScroll" = .int n := by simp [jIndex, jFind, hl]
    have hr := of_decide_eq_true ((by simpa [JValue.isInt] using hint :
      decide (-2147483648 ≤ n ∧ n < 2147483648) = true))
    rw [h6]; unfold rtsVal; rw [hidx]
    simp [jTruthy, JValue.isNull, hint, asIntD, jAsInt, hr.1, hr.2]
  · have hidx : jIndex (.obj d) "rowsToScroll" = .null := by simp [jIndex, jFind, hl]
    rw [h6]; unfold rtsVal; rw [hidx]; simp [jTruthy, JValue.isNull]

/-- Witness for C10: `{"rowsToScroll": "system"}` layers to
`RowsToScroll = 0`. -/
theorem claim_C10_rowsToScroll_witness :
    ({ defaultSettings with RowsToScroll := 0 } : GlobalAppSettings).RowsToScroll = 0 :=
  (claim_C10_rowsToScroll kb0 [("rowsToScroll", .str "system")] defaultSettings
    { defaultSettings with RowsToScroll := 0 } () (by decide)).1
    (.str "system") rfl rfl rfl

end TerminalApp
